import Mathlib

/-!
Verification of the asynchronous task-orchestration core of the
`watermarker` repository (`src/watermarker/tasks/watermark.py` and
`src/watermarker/hooks.py`), shallowly embedded in Lean.

Conventions of the embedding:
* The in-memory task store `_tasks_db` (a Python dict) is an association
  list `Store`; dict lookup, insertion-by-key and deletion-by-key are
  `storeGet`, `storeSet` and filtering.
* `datetime.utcnow()` is an explicit clock argument `now : Int`.
* The external watermark engine `apply_watermark` is an abstract fallible
  function (`Except String String`): per the spec it is an opaque external
  collaborator that returns an output path or fails with a message.
* Hook invocations, engine calls, `asyncio.sleep` delays and store writes
  are recorded in an event trace (`Ev`) so that temporal claims about a
  run are statements about the trace.
* Python's `int((idx / len(file_paths)) * 100)` runs in IEEE-754 binary64
  arithmetic; it is embedded exactly by `pyProgress`, built on an integer
  model of round-to-nearest-even double rounding (`roundPosRat`).
-/

namespace Watermarker

/-- Mirrors `class TaskStatus(str, Enum)`. -/
inductive TaskStatus where
  | pending
  | processing
  | completed
  | failed
  | retrying
deriving DecidableEq, Repr

/-- Structured stand-in for the `result: Dict[str, Any]` payloads actually
written by the orchestrator: `{"progress": p}`, `{"output_path": o,
"progress": p}`, and the batch aggregate
`{"total_files": n, "processed": [...], "skipped": [...], "progress": p}`. -/
inductive TaskResult where
  | progressOnly (progress : Nat)
  | single (output_path : String) (progress : Nat)
  | batch (total_files : Nat) (processed : List (String × String))
      (skipped : List (String × String)) (progress : Nat)
deriving DecidableEq, Repr

/-- Mirrors `class Task(BaseModel)`. -/
structure Task where
  task_id : String
  status : TaskStatus
  created_at : Int
  started_at : Option Int
  completed_at : Option Int
  result : Option TaskResult
  error : Option String
  retry_count : Nat
  max_retries : Nat
  retry_delay : Nat
deriving DecidableEq, Repr

/-- Mirrors the dictionary produced by `Task.to_dict` (the hook payload);
`retry_delay` is not part of it.  `result` stays an `Option`: `none` plays
the role of the empty dict produced by `self.result or {}`. -/
structure TaskView where
  task_id : String
  status : TaskStatus
  created_at : Int
  started_at : Option Int
  completed_at : Option Int
  result : Option TaskResult
  error : Option String
  retry_count : Nat
  max_retries : Nat
deriving DecidableEq, Repr

/-- Mirrors `Task.to_dict`. -/
def Task.to_dict (t : Task) : TaskView :=
  { task_id := t.task_id
    status := t.status
    created_at := t.created_at
    started_at := t.started_at
    completed_at := t.completed_at
    result := t.result
    error := t.error
    retry_count := t.retry_count
    max_retries := t.max_retries }

/-- The in-memory task store `_tasks_db: Dict[str, Task]`. -/
abbrev Store := List (String × Task)

/-- Dict lookup `_tasks_db.get(task_id)`. -/
def storeGet : Store → String → Option Task
  | [], _ => none
  | (k, v) :: rest, id => if k = id then some v else storeGet rest id

/-- Dict value replacement at a key (Python mutates the `Task` object held
in the dict; keys are unique in a dict, so this is assignment at the key). -/
def storeSet : Store → String → Task → Store
  | [], _, _ => []
  | (k, v) :: rest, id, t =>
      if k = id then (k, t) :: storeSet rest id t else (k, v) :: storeSet rest id t

/-- Mirrors `TaskManager.get_task`. -/
def get_task (db : Store) (task_id : String) : Option Task :=
  storeGet db task_id

/-- Pure per-task effect of `TaskManager.update_task_status` on the stored
record: set `status`; then `if status == PROCESSING and not task.started_at:
started_at = now; elif status in {COMPLETED, FAILED}: completed_at = now`;
then apply the keyword overrides actually used by the orchestrator
(`result`, `error`, `retry_count`). -/
def applyUpdate (task : Task) (now : Int) (status : TaskStatus)
    (result : Option TaskResult) (error : Option String)
    (retry_count : Option Nat) : Task :=
  let t1 := { task with status := status }
  let t2 :=
    if status = TaskStatus.processing ∧ t1.started_at = none then
      { t1 with started_at := some now }
    else if status = TaskStatus.completed ∨ status = TaskStatus.failed then
      { t1 with completed_at := some now }
    else t1
  let t3 := match result with
    | some v => { t2 with result := some v }
    | none => t2
  let t4 := match error with
    | some v => { t3 with error := some v }
    | none => t3
  match retry_count with
  | some v => { t4 with retry_count := v }
  | none => t4

/-- The `trigger_hook` invocations made at the end of
`TaskManager.update_task_status`, as (event name, payload) pairs:
`start` when entering PROCESSING from a different previous status,
`complete` on COMPLETED, `error` on FAILED. -/
def hookEventsFor (previous_status status : TaskStatus) (updated_task : TaskView) :
    List (String × TaskView) :=
  if status = TaskStatus.processing ∧ previous_status ≠ TaskStatus.processing then
    [("start", updated_task)]
  else if status = TaskStatus.completed then
    [("complete", updated_task)]
  else if status = TaskStatus.failed then
    [("error", updated_task)]
  else
    []

/-- Mirrors `TaskManager.update_task_status`: returns the updated store,
the return value (the updated task, or `none` when the id is unknown), and
the hook invocations it performed. -/
def update_task_status (db : Store) (now : Int) (task_id : String)
    (status : TaskStatus) (result : Option TaskResult) (error : Option String)
    (retry_count : Option Nat) : Store × Option Task × List (String × TaskView) :=
  match storeGet db task_id with
  | none => (db, none, [])
  | some task =>
      let previous_status := task.status
      let task' := applyUpdate task now status result error retry_count
      (storeSet db task_id task', some task',
        hookEventsFor previous_status status task'.to_dict)

/-- Predicate used by `TaskManager.cleanup_old_tasks`:
`t.completed_at and t.completed_at < cutoff` (a datetime is truthy, `None`
is falsy). -/
def isOldEntry (cutoff : Int) (p : String × Task) : Bool :=
  match p.2.completed_at with
  | some c => c < cutoff
  | none => false

/-- Boolean key membership, used to model `del _tasks_db[tid] for tid in
to_delete`. -/
def keyMem : List String → String → Bool
  | [], _ => false
  | k :: rest, id => if k = id then true else keyMem rest id

/-- Mirrors `TaskManager.cleanup_old_tasks`: collect the ids of tasks whose
`completed_at` is set and older than `now - hours`, delete those keys, and
return how many were collected. -/
def cleanup_old_tasks (db : Store) (now : Int) (hours : Int) : Store × Nat :=
  let cutoff := now - hours
  let to_delete := (db.filter (isOldEntry cutoff)).map Prod.fst
  (db.filter (fun p => !(keyMem to_delete p.1)), to_delete.length)

/-! ### Notification dispatcher (`hooks.py`) -/

/-- Delivery of a payload to a configured hook target (`urllib.request` or
`subprocess.Popen`); abstract fallible external effect. -/
def hook_delivery (deliver : String → TaskView → Except String Unit)
    (hook : String) (data : TaskView) : Except String Unit :=
  deliver hook data

/-- Mirrors `trigger_hook`: resolve `f"{event.upper()}_HOOK"` from the
environment; missing configuration is a silent no-op; a delivery failure is
caught (`except Exception`), logged and swallowed.  The `Except` codomain
records that no exception escapes: the function always returns `.ok`. -/
def trigger_hook (getenv : String → Option String)
    (deliver : String → TaskView → Except String Unit)
    (event : String) (data : TaskView) : Except String Unit :=
  match getenv (event.toUpper ++ "_HOOK") with
  | none => Except.ok ()
  | some hook =>
      match hook_delivery deliver hook data with
      | Except.ok _ => Except.ok ()
      | Except.error _e => Except.ok ()

/-- Sequentially fire `trigger_hook` for each hook invocation produced by a
store update. -/
def dispatch_hooks (getenv : String → Option String)
    (deliver : String → TaskView → Except String Unit) :
    List (String × TaskView) → Except String Unit
  | [] => Except.ok ()
  | p :: rest => do
      let _ ← trigger_hook getenv deliver p.1 p.2
      dispatch_hooks getenv deliver rest

/-- A store update together with the notification dispatch it performs, in
an exception-transparent monad: any exception escaping the hook calls would
surface as `.error`. -/
def update_task_status_notified (getenv : String → Option String)
    (deliver : String → TaskView → Except String Unit)
    (db : Store) (now : Int) (task_id : String) (status : TaskStatus)
    (result : Option TaskResult) (error : Option String)
    (retry_count : Option Nat) : Except String (Store × Option Task) := do
  let u := update_task_status db now task_id status result error retry_count
  let _ ← dispatch_hooks getenv deliver u.2.2
  Except.ok (u.1, u.2.1)

/-! ### Integer model of the IEEE-754 binary64 arithmetic used by
`progress = int((idx / len(file_paths)) * 100)` -/

/-- Fueled floor-log2 (structurally recursive so that it evaluates in the
kernel). -/
def log2fuel : Nat → Nat → Nat
  | 0, _ => 0
  | fuel + 1, n => if 2 ≤ n then log2fuel fuel (n / 2) + 1 else 0

/-- Floor of log2 of a positive natural. -/
def natLog2 (n : Nat) : Nat := log2fuel n n

/-- Floor of log2 of the positive rational a/b. -/
def ratLog2 (a b : Nat) : Int :=
  let z : Int := (natLog2 a : Int) - (natLog2 b : Int)
  if (if 0 ≤ z then b * 2 ^ z.toNat ≤ a else b ≤ a * 2 ^ (-z).toNat) then z
  else z - 1

/-- Round the positive rational a/b to the nearest integer, ties to even. -/
def roundNearestEven (a b : Nat) : Nat :=
  let q := a / b
  let r := a % b
  if 2 * r < b then q
  else if b < 2 * r then q + 1
  else if q % 2 = 0 then q else q + 1

/-- The IEEE-754 binary64 value nearest to the positive rational a/b
(round to nearest, ties to even), returned as (mantissa, exponent) with
value mantissa * 2 ^ exponent and mantissa of 53 significant bits.
Overflow and subnormals do not arise in the range used here. -/
def roundPosRat (a b : Nat) : Nat × Int :=
  let z := ratLog2 a b
  let s : Int := 52 - z
  let n :=
    if 0 ≤ s then roundNearestEven (a * 2 ^ s.toNat) b
    else roundNearestEven a (b * 2 ^ (-s).toNat)
  (n, z - 52)

/-- Double multiplication by a natural constant: the exact product,
rounded back to binary64. -/
def doubleMulNat : Nat × Int → Nat → Nat × Int
  | (n, e), m =>
      let p := roundPosRat (n * m) 1
      (p.1, p.2 + e)

/-- Python `int(x)` on a non-negative double: truncation, i.e. the floor
of mantissa * 2 ^ exponent. -/
def doubleFloor : Nat × Int → Nat
  | (n, e) => if 0 ≤ e then n * 2 ^ e.toNat else n / 2 ^ (-e).toNat

/-- Exact embedding of the source expression
`int((idx / len(file_paths)) * 100)` under IEEE-754 binary64 semantics:
divide, multiply by 100, truncate. -/
def pyProgress (idx n : Nat) : Nat :=
  doubleFloor (doubleMulNat (roundPosRat idx n) 100)

/-! ### Orchestrator runs and their observable traces -/

/-- Observable events of an orchestrator run: a `trigger_hook` invocation,
a call into the external watermark engine, an `asyncio.sleep`, and a store
write (the snapshot persisted by `update_task_status`, which pollers can
observe). -/
inductive Ev where
  | hook (event : String) (payload : TaskView)
  | engineCall (input : String)
  | sleep (seconds : Nat)
  | persist (view : TaskView)
deriving DecidableEq, Repr

/-- Trace contribution of one `update_task_status` call: the persisted
snapshot (when the id was found) followed by the hook invocations. -/
def updEvents (u : Store × Option Task × List (String × TaskView)) : List Ev :=
  (u.2.1.toList.map fun t => Ev.persist t.to_dict)
    ++ u.2.2.map fun p => Ev.hook p.1 p.2

/-- Mirrors `process_watermark_task`.  The engine is abstract and indexed
by the attempt number (`retry_count`), so that transient failures across
retries are expressible.  `fuel` bounds the recursion depth for Lean's
termination checker; every theorem below supplies enough fuel for the
bounded retry recursion of the source (which makes at most
`max_retries - retry_count` nested calls). -/
def process_watermark_task (engine : Nat → Except String String) (fuel : Nat)
    (db : Store) (now : Int) (task_id input : String) (retry_count : Nat) :
    Store × List Ev :=
  match storeGet db task_id with
  | none => (db, [])
  | some task =>
      let u1 := update_task_status db now task_id TaskStatus.processing
        (some (TaskResult.progressOnly 0)) none none
      match engine retry_count with
      | Except.ok output_path =>
          let u2 := update_task_status u1.1 now task_id TaskStatus.completed
            (some (TaskResult.single output_path 100)) none none
          (u2.1, updEvents u1 ++ [Ev.engineCall input] ++ updEvents u2)
      | Except.error exc =>
          if retry_count < task.max_retries then
            let delay := task.retry_delay * 2 ^ retry_count
            let u2 := update_task_status u1.1 now task_id TaskStatus.retrying
              (some (TaskResult.progressOnly 0)) (some exc) (some (retry_count + 1))
            match fuel with
            | 0 =>
                (u2.1, updEvents u1 ++ [Ev.engineCall input] ++ updEvents u2
                  ++ [Ev.sleep delay])
            | fuel' + 1 =>
                let r := process_watermark_task engine fuel' u2.1 now task_id input
                  (retry_count + 1)
                (r.1, updEvents u1 ++ [Ev.engineCall input] ++ updEvents u2
                  ++ [Ev.sleep delay] ++ r.2)
          else
            let u2 := update_task_status u1.1 now task_id TaskStatus.failed
              (some (TaskResult.progressOnly 0)) (some exc) (some retry_count)
            (u2.1, updEvents u1 ++ [Ev.engineCall input] ++ updEvents u2)

/-- The `for idx, file_path in enumerate(file_paths, 1)` loop of
`process_batch_task`, together with the surrounding `try/except`.
`interrupt idx0` models an orchestration-level exception (not a per-file
engine failure) raised by the driving loop after `idx0` files have been
fully attempted: the `except` branch transitions to FAILED keeping the
accumulated `processed`/`skipped`/`progress` (`lastProgress` starts at `0`,
matching the `progress if 'progress' in locals() else 0` fallback). -/
def batchLoop (engine : String → Except String String)
    (interrupt : Nat → Option String) (db : Store) (now : Int)
    (task_id : String) (n : Nat) (rest : List String) (idx0 : Nat)
    (processed skipped : List (String × String)) (lastProgress : Nat) :
    Store × List Ev :=
  match interrupt idx0 with
  | some msg =>
      let u := update_task_status db now task_id TaskStatus.failed
        (some (TaskResult.batch n processed skipped lastProgress)) (some msg) none
      (u.1, updEvents u)
  | none =>
      match rest with
      | [] =>
          let u := update_task_status db now task_id TaskStatus.completed
            (some (TaskResult.batch n processed skipped 100)) none none
          (u.1, updEvents u)
      | file :: rest' =>
          let idx := idx0 + 1
          let acc :=
            match engine file with
            | Except.ok output => (processed ++ [(file, output)], skipped)
            | Except.error exc => (processed, skipped ++ [(file, exc)])
          let progress := pyProgress idx n
          let u := update_task_status db now task_id TaskStatus.processing
            (some (TaskResult.batch n acc.1 acc.2 progress)) none none
          let r := batchLoop engine interrupt u.1 now task_id n rest' idx
            acc.1 acc.2 progress
          (r.1, Ev.engineCall file :: (updEvents u ++ r.2))

/-- Mirrors `process_batch_task`: look the task up (unknown id is a
no-op), transition to PROCESSING with the initial aggregate, then drive
the per-file loop. -/
def process_batch_task (engine : String → Except String String)
    (interrupt : Nat → Option String) (db : Store) (now : Int)
    (task_id : String) (file_paths : List String) : Store × List Ev :=
  match storeGet db task_id with
  | none => (db, [])
  | some _task =>
      let n := file_paths.length
      let u0 := update_task_status db now task_id TaskStatus.processing
        (some (TaskResult.batch n [] [] 0)) none none
      let r := batchLoop engine interrupt u0.1 now task_id n
        file_paths 0 [] [] 0
      (r.1, updEvents u0 ++ r.2)

/-! ### Trace projections -/

/-- Names of the hook events fired during a run, in order. -/
def hookNames (evs : List Ev) : List String :=
  evs.filterMap fun e =>
    match e with
    | Ev.hook name _ => some name
    | _ => none

/-- Backoff delays slept during a run, in order. -/
def sleeps (evs : List Ev) : List Nat :=
  evs.filterMap fun e =>
    match e with
    | Ev.sleep d => some d
    | _ => none

/-- Engine invocations made during a run, in order. -/
def engineCalls (evs : List Ev) : List String :=
  evs.filterMap fun e =>
    match e with
    | Ev.engineCall f => some f
    | _ => none

/-- The `result` payloads persisted to the store during a run, in order. -/
def persistResults (evs : List Ev) : List (Option TaskResult) :=
  evs.filterMap fun e =>
    match e with
    | Ev.persist v => some v.result
    | _ => none

/-- The statuses persisted to the store during a run, in order. -/
def persistStatuses (evs : List Ev) : List TaskStatus :=
  evs.filterMap fun e =>
    match e with
    | Ev.persist v => some v.status
    | _ => none

/-- Successful (input, output) pairs a run over the given files
accumulates in `processed`, in input order. -/
def pOf (engine : String → Except String String) (files : List String) :
    List (String × String) :=
  files.filterMap fun f =>
    match engine f with
    | Except.ok o => some (f, o)
    | Except.error _ => none

/-- Failed (input, reason) pairs a run over the given files accumulates in
`skipped`, in input order. -/
def sOf (engine : String → Except String String) (files : List String) :
    List (String × String) :=
  files.filterMap fun f =>
    match engine f with
    | Except.ok _ => none
    | Except.error e => some (f, e)

/-! ### Concrete fixtures used by witnesses and counterexamples -/

/-- Sample fresh task record, as produced by `TaskManager.create_task`
with the default parameters. -/
def sampleTask : Task :=
  { task_id := "t", status := TaskStatus.pending, created_at := 0,
    started_at := none, completed_at := none, result := none, error := none,
    retry_count := 0, max_retries := 3, retry_delay := 5 }

/-- Progress field of a persisted `result` payload, when present. -/
def resultProgress : Option TaskResult → Option Nat
  | some (TaskResult.progressOnly p) => some p
  | some (TaskResult.single _ p) => some p
  | some (TaskResult.batch _ _ _ p) => some p
  | none => none

/-- Non-terminal task that nevertheless carries an old `completed_at`. -/
def strayTask : Task :=
  { task_id := "a", status := TaskStatus.processing, created_at := 0,
    started_at := some 0, completed_at := some 0, result := none,
    error := none, retry_count := 0, max_retries := 3, retry_delay := 5 }

/-- Engine that fails on the first attempt and succeeds on the retry. -/
def failOnceEngine : Nat → Except String String :=
  fun attempt => if attempt = 0 then Except.error "boom" else Except.ok "out.mp4"

/-- Batch of 50 identically-named inputs. -/
def fiftyFiles : List String := List.replicate 50 "f"

/-- Engine for Scenario C: the second of three inputs fails. -/
def scenarioCEngine : String → Except String String :=
  fun f => if f = "b" then Except.error "bad input" else Except.ok (f ++ ".out")

/-! ### Concrete evaluations of the embedded definitions -/

example : pyProgress 29 50 = 57 := by decide
example : pyProgress 29 100 = 28 := by decide
example : pyProgress 1 3 = 33 := by decide
example : pyProgress 3 3 = 100 := by decide
example : pyProgress 2 2 = 100 := by decide

/-- Check that Scenario C's partition is the expected one. -/
example : pOf scenarioCEngine ["a", "b", "c"]
    = [("a", "a.out"), ("c", "c.out")] := by decide

example : sOf scenarioCEngine ["a", "b", "c"] = [("b", "bad input")] := by
  decide

/-! ### Helper lemmas about the store and the update operation -/

theorem storeGet_storeSet (db : Store) (id : String) (t' : Task) :
    storeGet (storeSet db id t') id = (storeGet db id).map fun _ => t' := by
  induction db with
  | nil => rfl
  | cons p rest ih =>
      obtain ⟨k, v⟩ := p
      by_cases h : k = id
      · simp [storeSet, storeGet, h]
      · simp [storeSet, storeGet, h, ih]

theorem storeGet_storeSet_some (db : Store) (id : String) (t t' : Task)
    (h : storeGet db id = some t) :
    storeGet (storeSet db id t') id = some t' := by
  rw [storeGet_storeSet, h, Option.map_some']

theorem applyUpdate_status (t : Task) (now : Int) (st : TaskStatus)
    (r : Option TaskResult) (e : Option String) (rc : Option Nat) :
    (applyUpdate t now st r e rc).status = st := by
  cases r <;> cases e <;> cases rc <;> simp only [applyUpdate] <;>
    split_ifs <;> rfl

theorem applyUpdate_max_retries (t : Task) (now : Int) (st : TaskStatus)
    (r : Option TaskResult) (e : Option String) (rc : Option Nat) :
    (applyUpdate t now st r e rc).max_retries = t.max_retries := by
  cases r <;> cases e <;> cases rc <;> simp only [applyUpdate] <;>
    split_ifs <;> rfl

theorem applyUpdate_retry_delay (t : Task) (now : Int) (st : TaskStatus)
    (r : Option TaskResult) (e : Option String) (rc : Option Nat) :
    (applyUpdate t now st r e rc).retry_delay = t.retry_delay := by
  cases r <;> cases e <;> cases rc <;> simp only [applyUpdate] <;>
    split_ifs <;> rfl

theorem applyUpdate_retry_count_some (t : Task) (now : Int) (st : TaskStatus)
    (r : Option TaskResult) (e : Option String) (k : Nat) :
    (applyUpdate t now st r e (some k)).retry_count = k := by
  cases r <;> cases e <;> simp only [applyUpdate]

theorem applyUpdate_result_some (t : Task) (now : Int) (st : TaskStatus)
    (v : TaskResult) (e : Option String) (rc : Option Nat) :
    (applyUpdate t now st (some v) e rc).result = some v := by
  cases e <;> cases rc <;> simp only [applyUpdate]

theorem applyUpdate_error_some (t : Task) (now : Int) (st : TaskStatus)
    (r : Option TaskResult) (m : String) (rc : Option Nat) :
    (applyUpdate t now st r (some m) rc).error = some m := by
  cases r <;> cases rc <;> simp only [applyUpdate]

theorem applyUpdate_started_at (t : Task) (now : Int) (st : TaskStatus)
    (r : Option TaskResult) (e : Option String) (rc : Option Nat) :
    (applyUpdate t now st r e rc).started_at =
      if st = TaskStatus.processing ∧ t.started_at = none then some now
      else t.started_at := by
  cases r <;> cases e <;> cases rc <;> simp only [applyUpdate] <;>
    split_ifs <;> simp_all

theorem applyUpdate_completed_at (t : Task) (now : Int) (st : TaskStatus)
    (r : Option TaskResult) (e : Option String) (rc : Option Nat) :
    (applyUpdate t now st r e rc).completed_at =
      if st = TaskStatus.completed ∨ st = TaskStatus.failed then some now
      else t.completed_at := by
  cases r <;> cases e <;> cases rc <;> simp only [applyUpdate] <;>
    split_ifs <;> simp_all

theorem update_task_status_found (db : Store) (now : Int) (id : String)
    (st : TaskStatus) (r : Option TaskResult) (e : Option String)
    (rc : Option Nat) (t : Task) (h : storeGet db id = some t) :
    update_task_status db now id st r e rc =
      (storeSet db id (applyUpdate t now st r e rc),
        some (applyUpdate t now st r e rc),
        hookEventsFor t.status st (applyUpdate t now st r e rc).to_dict) := by
  simp [update_task_status, h]

theorem hookEventsFor_retrying (prev : TaskStatus) (v : TaskView) :
    hookEventsFor prev TaskStatus.retrying v = [] := rfl

theorem hookEventsFor_completed (prev : TaskStatus) (v : TaskView) :
    hookEventsFor prev TaskStatus.completed v = [("complete", v)] := rfl

theorem hookEventsFor_failed (prev : TaskStatus) (v : TaskView) :
    hookEventsFor prev TaskStatus.failed v = [("error", v)] := rfl

theorem hookEventsFor_processing (prev : TaskStatus) (v : TaskView)
    (h : prev ≠ TaskStatus.processing) :
    hookEventsFor prev TaskStatus.processing v = [("start", v)] := by
  simp [hookEventsFor, h]

theorem hookEventsFor_processing_self (v : TaskView) :
    hookEventsFor TaskStatus.processing TaskStatus.processing v = [] := rfl

theorem sleeps_append (l1 l2 : List Ev) :
    sleeps (l1 ++ l2) = sleeps l1 ++ sleeps l2 := by
  simp [sleeps]

theorem hookNames_append (l1 l2 : List Ev) :
    hookNames (l1 ++ l2) = hookNames l1 ++ hookNames l2 := by
  simp [hookNames]

theorem engineCalls_append (l1 l2 : List Ev) :
    engineCalls (l1 ++ l2) = engineCalls l1 ++ engineCalls l2 := by
  simp [engineCalls]

theorem persistResults_append (l1 l2 : List Ev) :
    persistResults (l1 ++ l2) = persistResults l1 ++ persistResults l2 := by
  simp [persistResults]

theorem persistStatuses_append (l1 l2 : List Ev) :
    persistStatuses (l1 ++ l2) = persistStatuses l1 ++ persistStatuses l2 := by
  simp [persistStatuses]

theorem updEvents_eq (u : Store × Option Task × List (String × TaskView)) :
    updEvents u = (u.2.1.toList.map fun t => Ev.persist t.to_dict)
      ++ u.2.2.map fun p => Ev.hook p.1 p.2 := rfl

theorem sleeps_updEvents (u : Store × Option Task × List (String × TaskView)) :
    sleeps (updEvents u) = [] := by
  obtain ⟨db, ot, evs⟩ := u
  cases ot <;> simp [updEvents, sleeps, List.filterMap_eq_nil_iff]

theorem hookNames_hooks (evs : List (String × TaskView)) :
    hookNames (evs.map fun p => Ev.hook p.1 p.2) = evs.map Prod.fst := by
  induction evs with
  | nil => rfl
  | cons p rest ih =>
      simp only [hookNames, List.map_cons, List.filterMap_cons] at ih ⊢
      simp [ih]

theorem engineCalls_hooks (evs : List (String × TaskView)) :
    engineCalls (evs.map fun p => Ev.hook p.1 p.2) = [] := by
  induction evs with
  | nil => rfl
  | cons p rest ih =>
      simp only [engineCalls, List.map_cons, List.filterMap_cons] at ih ⊢
      simp [ih]

theorem persistResults_hooks (evs : List (String × TaskView)) :
    persistResults (evs.map fun p => Ev.hook p.1 p.2) = [] := by
  induction evs with
  | nil => rfl
  | cons p rest ih =>
      simp only [persistResults, List.map_cons, List.filterMap_cons] at ih ⊢
      simp [ih]

theorem persistStatuses_hooks (evs : List (String × TaskView)) :
    persistStatuses (evs.map fun p => Ev.hook p.1 p.2) = [] := by
  induction evs with
  | nil => rfl
  | cons p rest ih =>
      simp only [persistStatuses, List.map_cons, List.filterMap_cons] at ih ⊢
      simp [ih]

theorem hookNames_updEvents (u : Store × Option Task × List (String × TaskView)) :
    hookNames (updEvents u) = u.2.2.map Prod.fst := by
  obtain ⟨db, ot, evs⟩ := u
  cases ot <;> rw [updEvents_eq, hookNames_append, hookNames_hooks] <;> rfl

theorem engineCalls_updEvents (u : Store × Option Task × List (String × TaskView)) :
    engineCalls (updEvents u) = [] := by
  obtain ⟨db, ot, evs⟩ := u
  cases ot <;> rw [updEvents_eq, engineCalls_append, engineCalls_hooks] <;> rfl

theorem persistResults_updEvents (u : Store × Option Task × List (String × TaskView)) :
    persistResults (updEvents u) = u.2.1.toList.map Task.result := by
  obtain ⟨db, ot, evs⟩ := u
  cases ot <;> rw [updEvents_eq, persistResults_append, persistResults_hooks] <;> rfl

theorem persistStatuses_updEvents (u : Store × Option Task × List (String × TaskView)) :
    persistStatuses (updEvents u) = u.2.1.toList.map Task.status := by
  obtain ⟨db, ot, evs⟩ := u
  cases ot <;> rw [updEvents_eq, persistStatuses_append, persistStatuses_hooks] <;> rfl

/-- Pointwise-equal predicates filter alike. -/
theorem filterCongr {α : Type} (f g : α → Bool) :
    ∀ l : List α, (∀ a ∈ l, f a = g a) → l.filter f = l.filter g := by
  intro l
  induction l with
  | nil => intro _; rfl
  | cons a rest ih =>
      intro h
      have ha := h a (List.mem_cons_self a rest)
      have hrest := ih fun b hb => h b (List.mem_cons_of_mem a hb)
      simp [List.filter_cons, ha, hrest]

theorem keyMem_iff (l : List String) (id : String) :
    keyMem l id = true ↔ id ∈ l := by
  induction l with
  | nil => simp [keyMem]
  | cons k rest ih =>
      by_cases h : k = id
      · simp [keyMem, h]
      · simp [keyMem, h, ih]
        exact fun he => absurd he.symm h

/-- In a store with pairwise-distinct keys (a dict), entries are determined
by their key. -/
theorem nodup_keys_inj (db : Store) (hnd : (db.map Prod.fst).Nodup)
    (p q : String × Task) (hp : p ∈ db) (hq : q ∈ db) (hk : p.1 = q.1) :
    p = q := by
  induction db with
  | nil => cases hp
  | cons a rest ih =>
      rw [List.map_cons, List.nodup_cons] at hnd
      rcases List.mem_cons.mp hp with rfl | hp' <;>
        rcases List.mem_cons.mp hq with rfl | hq'
      · rfl
      · exact absurd (hk ▸ List.mem_map_of_mem Prod.fst hq') hnd.1
      · exact absurd (hk ▸ List.mem_map_of_mem Prod.fst hp') hnd.1
      · exact ih hnd.2 hp' hq'

/-! ### Claim C8 — notification failures are isolated -/

theorem trigger_hook_ok (getenv : String → Option String)
    (deliver : String → TaskView → Except String Unit)
    (event : String) (data : TaskView) :
    trigger_hook getenv deliver event data = Except.ok () := by
  unfold trigger_hook hook_delivery
  cases getenv (event.toUpper ++ "_HOOK") with
  | none => rfl
  | some hook => cases hd : deliver hook data <;> simp [hd]

theorem dispatch_hooks_ok (getenv : String → Option String)
    (deliver : String → TaskView → Except String Unit) :
    ∀ evs : List (String × TaskView),
      dispatch_hooks getenv deliver evs = Except.ok () := by
  intro evs
  induction evs with
  | nil => rfl
  | cons p rest ih =>
      simp only [dispatch_hooks, trigger_hook_ok, ih]
      rfl

/-- Claim C8: for every lifecycle event and payload, a failure inside hook
delivery never propagates an exception to the caller and never alters the
updated task or the store: the dispatching update always returns `.ok` with
exactly the store and task produced by the pure update, for every delivery
function (including always-failing ones) and every environment. -/
theorem c8_hook_failure_isolated (getenv : String → Option String)
    (deliver : String → TaskView → Except String Unit) (db : Store)
    (now : Int) (task_id : String) (status : TaskStatus)
    (result : Option TaskResult) (error : Option String)
    (retry_count : Option Nat) :
    update_task_status_notified getenv deliver db now task_id status result
        error retry_count =
      Except.ok ((update_task_status db now task_id status result error
          retry_count).1,
        (update_task_status db now task_id status result error
          retry_count).2.1) := by
  simp only [update_task_status_notified, dispatch_hooks_ok]
  rfl

/-! ### Claim C9 — unknown task id is a no-op -/

/-- Claim C9: for a task id absent from the store, the single-file and
batch orchestration routines leave the store unchanged and produce no
events (no engine call, no hook, no store write), and the status query
returns a not-found result while mutating nothing. -/
theorem c9_unknown_id_noop (engine1 : Nat → Except String String)
    (engine2 : String → Except String String) (interrupt : Nat → Option String)
    (fuel : Nat) (db : Store) (now : Int) (task_id input : String)
    (retry_count : Nat) (files : List String)
    (h : storeGet db task_id = none) :
    process_watermark_task engine1 fuel db now task_id input retry_count
        = (db, []) ∧
    process_batch_task engine2 interrupt db now task_id files = (db, []) ∧
    get_task db task_id = none := by
  refine ⟨?_, ?_, h⟩
  · cases fuel <;> simp [process_watermark_task, h]
  · simp [process_batch_task, h]

/-- Witness for C9 at a concrete store and unknown id. -/
theorem c9_witness :
    process_watermark_task (fun _ => Except.error "x") 3 [("a", sampleTask)]
        0 "missing" "in.mp4" 0 = ([("a", sampleTask)], []) ∧
    process_batch_task (fun f => Except.ok f) (fun _ => none)
        [("a", sampleTask)] 0 "missing" ["f1"] = ([("a", sampleTask)], []) ∧
    get_task [("a", sampleTask)] "missing" = none :=
  c9_unknown_id_noop (fun _ => Except.error "x") (fun f => Except.ok f)
    (fun _ => none) 3 [("a", sampleTask)] 0 "missing" "in.mp4" 0 ["f1"]
    (by decide)

/-! ### Claim C4 — the reaper's removal criterion -/

/-- Counterexample to C4: `cleanup_old_tasks` consults only `completed_at`,
so a store holding a PROCESSING task with an old `completed_at` has that
non-terminal task removed by the sweep, contradicting the claimed
"never removes a non-terminal task regardless of age". -/
theorem c4_counterexample :
    (cleanup_old_tasks [("a", strayTask)] 100 24).1 = [] ∧
    (cleanup_old_tasks [("a", strayTask)] 100 24).2 = 1 ∧
    strayTask.status ≠ TaskStatus.completed ∧
    strayTask.status ≠ TaskStatus.failed := by decide

/-- Claim C4, amended: on a store with distinct keys, the sweep removes a
task if and only if its `completed_at` is set and precedes `now - retention`
— the status is not consulted — and it returns the number of tasks
removed. -/
theorem c4_amended_sweep_criterion (db : Store) (now hours : Int)
    (hnd : (db.map Prod.fst).Nodup) :
    (cleanup_old_tasks db now hours).1
        = db.filter (fun p => !(isOldEntry (now - hours) p)) ∧
    (cleanup_old_tasks db now hours).2
        = (db.filter (isOldEntry (now - hours))).length := by
  constructor
  · unfold cleanup_old_tasks
    refine filterCongr _ _ db fun p hp => ?_
    have : keyMem ((db.filter (isOldEntry (now - hours))).map Prod.fst) p.1
        = isOldEntry (now - hours) p := by
      cases hold : isOldEntry (now - hours) p
      · rw [← Bool.not_eq_true, keyMem_iff]
        intro hmem
        obtain ⟨q, hq, hkq⟩ := List.mem_map.mp hmem
        have hq' := List.mem_filter.mp hq
        have : q = p := nodup_keys_inj db hnd q p hq'.1 hp hkq
        rw [this] at hq'
        rw [hold] at hq'
        exact Bool.false_ne_true hq'.2
      · rw [keyMem_iff]
        exact List.mem_map_of_mem Prod.fst
          (List.mem_filter.mpr ⟨hp, hold⟩)
    rw [this]
  · unfold cleanup_old_tasks
    simp

/-- Witness for the amended C4 on a concrete two-task store: the stale
entry is removed, the fresh one kept, count 1. -/
theorem c4_witness :
    (cleanup_old_tasks [("a", strayTask), ("b", sampleTask)] 100 24).1
        = [("a", strayTask), ("b", sampleTask)].filter
            (fun p => !(isOldEntry (100 - 24) p)) ∧
    (cleanup_old_tasks [("a", strayTask), ("b", sampleTask)] 100 24).2
        = ([("a", strayTask), ("b", sampleTask)].filter
            (isOldEntry (100 - 24))).length :=
  c4_amended_sweep_criterion [("a", strayTask), ("b", sampleTask)] 100 24
    (by decide)

/-! ### Claim C5 — timestamp derivation in the store update -/

/-- Counterexample to C5: `update_task_status` re-stamps `completed_at` on
every terminal update.  Starting from a fresh task, a COMPLETED update at
time 5 sets `completed_at = 5`; a second terminal update at time 9 changes
it to 9, contradicting "a second update with a terminal status leaves
`completed_at` unchanged". -/
theorem c5_counterexample :
    ((storeGet (update_task_status [("t", sampleTask)] 5 "t"
        TaskStatus.completed none none none).1 "t").map Task.completed_at
      = some (some 5)) ∧
    ((storeGet (update_task_status (update_task_status [("t", sampleTask)] 5
        "t" TaskStatus.completed none none none).1 9 "t" TaskStatus.failed
        none none none).1 "t").map Task.completed_at
      = some (some 9)) ∧
    some (some (9 : Int)) ≠ some (some (5 : Int)) := by decide

/-- Claim C5, amended: `started_at` is set exactly once, by the first
update whose status is PROCESSING while it is still unset, and no later
update changes it; `completed_at`, however, is overwritten with the current
time by every update whose status is COMPLETED or FAILED (and untouched by
all other updates). -/
theorem c5_amended_timestamps (db : Store) (now : Int) (task_id : String)
    (status : TaskStatus) (result : Option TaskResult) (error : Option String)
    (retry_count : Option Nat) (t : Task)
    (h : storeGet db task_id = some t) :
    ∃ t', storeGet (update_task_status db now task_id status result error
        retry_count).1 task_id = some t' ∧
      t'.started_at = (if status = TaskStatus.processing ∧ t.started_at = none
        then some now else t.started_at) ∧
      t'.completed_at = (if status = TaskStatus.completed
          ∨ status = TaskStatus.failed
        then some now else t.completed_at) := by
  refine ⟨applyUpdate t now status result error retry_count, ?_, ?_, ?_⟩
  · rw [update_task_status_found db now task_id status result error
      retry_count t h]
    exact storeGet_storeSet_some db task_id t _ h
  · exact applyUpdate_started_at t now status result error retry_count
  · exact applyUpdate_completed_at t now status result error retry_count

/-- Witness for the amended C5: a PROCESSING update on a fresh task stamps
`started_at` with the clock and leaves `completed_at` unset. -/
theorem c5_witness :
    ∃ t', storeGet (update_task_status [("t", sampleTask)] 7 "t"
        TaskStatus.processing none none none).1 "t" = some t' ∧
      t'.started_at = (if TaskStatus.processing = TaskStatus.processing
          ∧ sampleTask.started_at = none
        then some 7 else sampleTask.started_at) ∧
      t'.completed_at = (if TaskStatus.processing = TaskStatus.completed
          ∨ TaskStatus.processing = TaskStatus.failed
        then some 7 else sampleTask.completed_at) :=
  c5_amended_timestamps [("t", sampleTask)] 7 "t" TaskStatus.processing
    none none none sampleTask (by decide)

/-! ### Counterexamples to C1 and C2 -/

/-- Counterexample to C1: drive a single-file task whose first attempt
fails and whose retry succeeds.  The retry's re-entry into PROCESSING (from
RETRYING) invokes the start hook again: the hook sequence is
start, start, complete — not a single start. -/
theorem c1_counterexample :
    hookNames (process_watermark_task failOnceEngine 10 [("t", sampleTask)]
        0 "t" "in.mp4" 0).2 = ["start", "start", "complete"] := by decide

/-- Counterexample to C2: in a 50-file batch with an always-succeeding
engine, the progress persisted after the 29th file is
`int((29 / 50) * 100) = 57` under IEEE-754 binary64 arithmetic
(`(29 / 50) * 100` evaluates to `57.99999999999999`), while
`floor(100 * 29 / 50) = 58`. -/
theorem c2_counterexample :
    ((persistResults (process_batch_task (fun f => Except.ok f)
          (fun _ => none) [("t", sampleTask)] 0 "t" fiftyFiles).2).map
        resultProgress)[29]? = some (some 57) ∧
    100 * 29 / 50 = 58 := by decide

/-! ### Claim C3 — retry exhaustion on a single-file task -/

theorem pwt_exhausted (engine : Nat → Except String String) (fuel : Nat)
    (db : Store) (now : Int) (task_id input : String) (rc : Nat) (t : Task)
    (h : storeGet db task_id = some t) (hrc : ¬ rc < t.max_retries)
    (exc : String) (he : engine rc = Except.error exc) :
    (∃ t', storeGet (process_watermark_task engine fuel db now task_id input
        rc).1 task_id = some t' ∧
      t'.status = TaskStatus.failed ∧ t'.retry_count = rc) ∧
    sleeps (process_watermark_task engine fuel db now task_id input rc).2
      = [] := by
  have h1 : storeGet (update_task_status db now task_id TaskStatus.processing
      (some (TaskResult.progressOnly 0)) none none).1 task_id
      = some (applyUpdate t now TaskStatus.processing
          (some (TaskResult.progressOnly 0)) none none) := by
    rw [update_task_status_found db now task_id _ _ _ _ t h]
    exact storeGet_storeSet_some db task_id t _ h
  rw [process_watermark_task.eq_def, h]
  simp only [he, if_neg hrc]
  constructor
  · refine ⟨applyUpdate (applyUpdate t now TaskStatus.processing
        (some (TaskResult.progressOnly 0)) none none) now TaskStatus.failed
        (some (TaskResult.progressOnly 0)) (some exc) (some rc),
      ?_, ?_, ?_⟩
    · rw [update_task_status_found _ now task_id _ _ _ _ _ h1]
      exact storeGet_storeSet_some _ task_id _ _ h1
    · exact applyUpdate_status _ now TaskStatus.failed _ _ _
    · exact applyUpdate_retry_count_some _ now TaskStatus.failed _ _ rc
  · rw [sleeps_append, sleeps_append, sleeps_updEvents, sleeps_updEvents]
    rfl

theorem pwt_allfail_aux (msgs : Nat → String) (now : Int)
    (task_id input : String) :
    ∀ (fuel rc : Nat) (db : Store) (t : Task), storeGet db task_id = some t →
      rc ≤ t.max_retries → t.max_retries - rc ≤ fuel →
      (∃ t', storeGet (process_watermark_task (fun a => Except.error (msgs a))
          fuel db now task_id input rc).1 task_id = some t' ∧
        t'.status = TaskStatus.failed ∧ t'.retry_count = t.max_retries) ∧
      sleeps (process_watermark_task (fun a => Except.error (msgs a)) fuel db
          now task_id input rc).2
        = (List.range (t.max_retries - rc)).map
            fun i => t.retry_delay * 2 ^ (rc + i) := by
  intro fuel
  induction fuel with
  | zero =>
      intro rc db t h hle hfuel
      have hrc : rc = t.max_retries := by omega
      subst hrc
      have := pwt_exhausted (fun a => Except.error (msgs a)) 0 db now task_id
        input t.max_retries t h (by omega) (msgs t.max_retries) rfl
      simpa [Nat.sub_self] using this
  | succ f ih =>
      intro rc db t h hle hfuel
      by_cases hlt : rc < t.max_retries
      · -- one more retry happens
        have h1 : storeGet (update_task_status db now task_id
            TaskStatus.processing (some (TaskResult.progressOnly 0)) none
            none).1 task_id
            = some (applyUpdate t now TaskStatus.processing
                (some (TaskResult.progressOnly 0)) none none) := by
          rw [update_task_status_found db now task_id _ _ _ _ t h]
          exact storeGet_storeSet_some db task_id t _ h
        have h2 : storeGet (update_task_status (update_task_status db now
            task_id TaskStatus.processing (some (TaskResult.progressOnly 0))
            none none).1 now task_id TaskStatus.retrying
            (some (TaskResult.progressOnly 0)) (some (msgs rc))
            (some (rc + 1))).1 task_id
            = some (applyUpdate (applyUpdate t now TaskStatus.processing
                (some (TaskResult.progressOnly 0)) none none) now
                TaskStatus.retrying (some (TaskResult.progressOnly 0))
                (some (msgs rc)) (some (rc + 1))) := by
          rw [update_task_status_found _ now task_id _ _ _ _ _ h1]
          exact storeGet_storeSet_some _ task_id _ _ h1
        set t2 := applyUpdate (applyUpdate t now TaskStatus.processing
          (some (TaskResult.progressOnly 0)) none none) now
          TaskStatus.retrying (some (TaskResult.progressOnly 0))
          (some (msgs rc)) (some (rc + 1)) with ht2
        have ht2mr : t2.max_retries = t.max_retries := by
          rw [ht2, applyUpdate_max_retries, applyUpdate_max_retries]
        have ht2rd : t2.retry_delay = t.retry_delay := by
          rw [ht2, applyUpdate_retry_delay, applyUpdate_retry_delay]
        have hrec := ih (rc + 1) _ t2 h2
          (by rw [ht2mr]; omega) (by rw [ht2mr]; omega)
        rw [process_watermark_task.eq_def, h]
        simp only [if_pos hlt]
        constructor
        · obtain ⟨t', hget, hst, hcnt⟩ := hrec.1
          exact ⟨t', hget, hst, by rw [hcnt, ht2mr]⟩
        · rw [sleeps_append, sleeps_append, sleeps_append, sleeps_append,
            sleeps_updEvents, sleeps_updEvents, hrec.2, ht2mr, ht2rd]
          have hm : t.max_retries - rc = (t.max_retries - (rc + 1)) + 1 := by
            omega
          rw [hm, List.range_succ_eq_map, List.map_cons, List.map_map]
          have hfun : ((fun i => t.retry_delay * 2 ^ (rc + i)) ∘ Nat.succ)
              = fun i => t.retry_delay * 2 ^ (rc + 1 + i) := by
            funext i
            simp only [Function.comp]
            rw [show rc + Nat.succ i = rc + 1 + i from by omega]
          rw [hfun]
          rfl
      · have hrc : rc = t.max_retries := by omega
        subst hrc
        have := pwt_exhausted (fun a => Except.error (msgs a)) (f + 1) db now
          task_id input t.max_retries t h hlt (msgs t.max_retries) rfl
        simpa [Nat.sub_self] using this

/-- Claim C3: for a single-file task whose engine call fails on every
attempt, the task reaches FAILED with `retry_count` equal to `max_retries`
(never less, never more), and before FAILED exactly `max_retries` backoff
delays are slept, in order, the i-th (from 0) being
`retry_delay * 2 ^ i`. -/
theorem c3_retry_exhaustion (msgs : Nat → String) (fuel : Nat) (db : Store)
    (now : Int) (task_id input : String) (t : Task)
    (h : storeGet db task_id = some t) (hfuel : t.max_retries ≤ fuel) :
    (∃ t', storeGet (process_watermark_task (fun a => Except.error (msgs a))
        fuel db now task_id input 0).1 task_id = some t' ∧
      t'.status = TaskStatus.failed ∧ t'.retry_count = t.max_retries) ∧
    sleeps (process_watermark_task (fun a => Except.error (msgs a)) fuel db
        now task_id input 0).2
      = (List.range t.max_retries).map fun i => t.retry_delay * 2 ^ i := by
  have := pwt_allfail_aux msgs now task_id input fuel 0 db t h
    (Nat.zero_le _) (by omega)
  simpa using this

/-- Witness for C3: the default task (max_retries 3, retry_delay 5) with an
always-failing engine ends FAILED with retry_count 3 after sleeping
5, 10, 20. -/
theorem c3_witness :
    (∃ t', storeGet (process_watermark_task
        (fun a => Except.error ((fun _ => "boom") a)) 3 [("t", sampleTask)] 0
        "t" "in.mp4" 0).1 "t" = some t' ∧
      t'.status = TaskStatus.failed ∧ t'.retry_count = sampleTask.max_retries) ∧
    sleeps (process_watermark_task (fun a => Except.error ((fun _ => "boom") a))
        3 [("t", sampleTask)] 0 "t" "in.mp4" 0).2
      = (List.range sampleTask.max_retries).map
          fun i => sampleTask.retry_delay * 2 ^ i :=
  c3_retry_exhaustion (fun _ => "boom") 3 [("t", sampleTask)] 0 "t" "in.mp4"
    sampleTask (by decide) (by decide)

/-! ### Batch-loop invariants -/

theorem pOf_cons_ok (engine : String → Except String String) (f o : String)
    (rest : List String) (he : engine f = Except.ok o) :
    pOf engine (f :: rest) = (f, o) :: pOf engine rest := by
  simp [pOf, he]

theorem pOf_cons_err (engine : String → Except String String) (f m : String)
    (rest : List String) (he : engine f = Except.error m) :
    pOf engine (f :: rest) = pOf engine rest := by
  simp [pOf, he]

theorem sOf_cons_ok (engine : String → Except String String) (f o : String)
    (rest : List String) (he : engine f = Except.ok o) :
    sOf engine (f :: rest) = sOf engine rest := by
  simp [sOf, he]

theorem sOf_cons_err (engine : String → Except String String) (f m : String)
    (rest : List String) (he : engine f = Except.error m) :
    sOf engine (f :: rest) = (f, m) :: sOf engine rest := by
  simp [sOf, he]

theorem pOf_nil (engine : String → Except String String) :
    pOf engine [] = [] := rfl

theorem sOf_nil (engine : String → Except String String) :
    sOf engine [] = [] := rfl

theorem range_map_shift {α : Type} (g : Nat → α) (len : Nat) :
    (List.range (len + 1)).map g
      = g 0 :: (List.range len).map fun k => g (k + 1) := by
  rw [List.range_succ_eq_map, List.map_cons, List.map_map]
  rfl

theorem map_ext {α β : Type} (g h : α → β) (l : List α)
    (he : ∀ a, g a = h a) : l.map g = l.map h := by
  rw [funext he]

theorem persistResults_engineCall (f : String) (l : List Ev) :
    persistResults (Ev.engineCall f :: l) = persistResults l := by
  simp [persistResults, List.filterMap_cons]

theorem persistStatuses_engineCall (f : String) (l : List Ev) :
    persistStatuses (Ev.engineCall f :: l) = persistStatuses l := by
  simp [persistStatuses, List.filterMap_cons]

theorem engineCalls_engineCall (f : String) (l : List Ev) :
    engineCalls (Ev.engineCall f :: l) = f :: engineCalls l := by
  simp [engineCalls, List.filterMap_cons]

/-- Invariant of the batch loop without orchestration exceptions: it drives
the task to COMPLETED, with the aggregate extending the accumulated
`processed`/`skipped` by the outcomes of the remaining files, and
progress 100. -/
theorem batchLoop_no_interrupt (engine : String → Except String String)
    (now : Int) (task_id : String) (n : Nat) :
    ∀ (rest : List String) (db : Store) (idx0 : Nat)
      (processed skipped : List (String × String)) (lp : Nat) (t : Task),
      storeGet db task_id = some t →
      ∃ t', storeGet (batchLoop engine (fun _ => none) db now task_id n rest
          idx0 processed skipped lp).1 task_id = some t' ∧
        t'.status = TaskStatus.completed ∧
        t'.result = some (TaskResult.batch n (processed ++ pOf engine rest)
          (skipped ++ sOf engine rest) 100) := by
  intro rest
  induction rest with
  | nil =>
      intro db idx0 processed skipped lp t h
      simp only [batchLoop]
      refine ⟨applyUpdate t now TaskStatus.completed
        (some (TaskResult.batch n processed skipped 100)) none none,
        ?_, ?_, ?_⟩
      · rw [update_task_status_found _ now task_id _ _ _ _ t h]
        exact storeGet_storeSet_some _ task_id t _ h
      · exact applyUpdate_status t now TaskStatus.completed _ _ _
      · rw [applyUpdate_result_some]
        simp [pOf_nil, sOf_nil]
  | cons f rest' ih =>
      intro db idx0 processed skipped lp t h
      cases he : engine f with
      | ok o =>
          simp only [batchLoop, he]
          have h1 : storeGet (update_task_status db now task_id
              TaskStatus.processing (some (TaskResult.batch n
                (processed ++ [(f, o)]) skipped (pyProgress (idx0 + 1) n)))
              none none).1 task_id
              = some (applyUpdate t now TaskStatus.processing
                  (some (TaskResult.batch n (processed ++ [(f, o)]) skipped
                    (pyProgress (idx0 + 1) n))) none none) := by
            rw [update_task_status_found db now task_id _ _ _ _ t h]
            exact storeGet_storeSet_some db task_id t _ h
          obtain ⟨t', hget, hst, hres⟩ := ih _ (idx0 + 1)
            (processed ++ [(f, o)]) skipped (pyProgress (idx0 + 1) n) _ h1
          refine ⟨t', hget, hst, ?_⟩
          rw [hres, pOf_cons_ok engine f o rest' he,
            sOf_cons_ok engine f o rest' he]
          simp [List.append_assoc]
      | error m =>
          simp only [batchLoop, he]
          have h1 : storeGet (update_task_status db now task_id
              TaskStatus.processing (some (TaskResult.batch n processed
                (skipped ++ [(f, m)]) (pyProgress (idx0 + 1) n)))
              none none).1 task_id
              = some (applyUpdate t now TaskStatus.processing
                  (some (TaskResult.batch n processed (skipped ++ [(f, m)])
                    (pyProgress (idx0 + 1) n))) none none) := by
            rw [update_task_status_found db now task_id _ _ _ _ t h]
            exact storeGet_storeSet_some db task_id t _ h
          obtain ⟨t', hget, hst, hres⟩ := ih _ (idx0 + 1)
            processed (skipped ++ [(f, m)]) (pyProgress (idx0 + 1) n) _ h1
          refine ⟨t', hget, hst, ?_⟩
          rw [hres, pOf_cons_err engine f m rest' he,
            sOf_cons_err engine f m rest' he]
          simp [List.append_assoc]

/-! ### Claim C6 — batch completion despite per-file failures -/

/-- Claim C6: for a batch task in which every per-file engine call either
returns an output or raises, and the driving loop itself is not
interrupted, the task ends COMPLETED with progress 100 regardless of how
many files failed; `processed` is exactly the successful (input, output)
pairs and `skipped` exactly the failed (input, reason) pairs, in input
order (each input landing in exactly one of the two lists). -/
theorem c6_batch_completes_with_partition (engine : String → Except String String)
    (db : Store) (now : Int) (task_id : String) (files : List String)
    (t : Task) (h : storeGet db task_id = some t) :
    ∃ t', storeGet (process_batch_task engine (fun _ => none) db now task_id
        files).1 task_id = some t' ∧
      t'.status = TaskStatus.completed ∧
      t'.result = some (TaskResult.batch files.length (pOf engine files)
        (sOf engine files) 100) := by
  simp only [process_batch_task, h]
  have h1 : storeGet (update_task_status db now task_id TaskStatus.processing
      (some (TaskResult.batch files.length [] [] 0)) none none).1 task_id
      = some (applyUpdate t now TaskStatus.processing
          (some (TaskResult.batch files.length [] [] 0)) none none) := by
    rw [update_task_status_found db now task_id _ _ _ _ t h]
    exact storeGet_storeSet_some db task_id t _ h
  obtain ⟨t', hget, hst, hres⟩ := batchLoop_no_interrupt engine now task_id
    files.length files _ 0 [] [] 0 _ h1
  exact ⟨t', hget, hst, by simpa using hres⟩

/-- Witness for C6 at Scenario C: batch over a, b, c where b fails. -/
theorem c6_witness :
    ∃ t', storeGet (process_batch_task scenarioCEngine (fun _ => none)
        [("t", sampleTask)] 0 "t" ["a", "b", "c"]).1 "t" = some t' ∧
      t'.status = TaskStatus.completed ∧
      t'.result = some (TaskResult.batch (["a", "b", "c"] : List String).length
        (pOf scenarioCEngine ["a", "b", "c"])
        (sOf scenarioCEngine ["a", "b", "c"]) 100) :=
  c6_batch_completes_with_partition scenarioCEngine [("t", sampleTask)] 0 "t"
    ["a", "b", "c"] sampleTask (by decide)

/-! ### Claim C2 — persisted incremental progress -/

/-- Persist-trace of the batch loop: one store write per file carrying the
running aggregate with `pyProgress` of the file index, then the final
COMPLETED write with progress 100. -/
theorem batchLoop_persists (engine : String → Except String String)
    (now : Int) (task_id : String) (n : Nat) :
    ∀ (rest : List String) (db : Store) (idx0 : Nat)
      (processed skipped : List (String × String)) (lp : Nat) (t : Task),
      storeGet db task_id = some t →
      persistResults (batchLoop engine (fun _ => none) db now task_id n rest
          idx0 processed skipped lp).2
        = ((List.range rest.length).map fun k =>
            some (TaskResult.batch n
              (processed ++ pOf engine (rest.take (k + 1)))
              (skipped ++ sOf engine (rest.take (k + 1)))
              (pyProgress (idx0 + (k + 1)) n)))
          ++ [some (TaskResult.batch n (processed ++ pOf engine rest)
              (skipped ++ sOf engine rest) 100)] := by
  intro rest
  induction rest with
  | nil =>
      intro db idx0 processed skipped lp t h
      simp only [batchLoop]
      rw [persistResults_updEvents,
        update_task_status_found _ now task_id _ _ _ _ t h]
      simp [applyUpdate_result_some, pOf_nil, sOf_nil]
  | cons f rest' ih =>
      intro db idx0 processed skipped lp t h
      cases he : engine f with
      | ok o =>
          simp only [batchLoop, he]
          have h1 : storeGet (update_task_status db now task_id
              TaskStatus.processing (some (TaskResult.batch n
                (processed ++ [(f, o)]) skipped (pyProgress (idx0 + 1) n)))
              none none).1 task_id
              = some (applyUpdate t now TaskStatus.processing
                  (some (TaskResult.batch n (processed ++ [(f, o)]) skipped
                    (pyProgress (idx0 + 1) n))) none none) := by
            rw [update_task_status_found db now task_id _ _ _ _ t h]
            exact storeGet_storeSet_some db task_id t _ h
          rw [persistResults_engineCall, persistResults_append,
            ih _ (idx0 + 1) (processed ++ [(f, o)]) skipped
              (pyProgress (idx0 + 1) n) _ h1,
            persistResults_updEvents,
            update_task_status_found _ now task_id _ _ _ _ t h,
            List.length_cons, range_map_shift]
          simp [applyUpdate_result_some, List.take_succ_cons,
            pOf_cons_ok engine f o _ he, sOf_cons_ok engine f o _ he,
            pOf_nil, sOf_nil, List.append_assoc,
            Nat.add_assoc, Nat.add_comm, Nat.add_left_comm]
      | error m =>
          simp only [batchLoop, he]
          have h1 : storeGet (update_task_status db now task_id
              TaskStatus.processing (some (TaskResult.batch n processed
                (skipped ++ [(f, m)]) (pyProgress (idx0 + 1) n)))
              none none).1 task_id
              = some (applyUpdate t now TaskStatus.processing
                  (some (TaskResult.batch n processed (skipped ++ [(f, m)])
                    (pyProgress (idx0 + 1) n))) none none) := by
            rw [update_task_status_found db now task_id _ _ _ _ t h]
            exact storeGet_storeSet_some db task_id t _ h
          rw [persistResults_engineCall, persistResults_append,
            ih _ (idx0 + 1) processed (skipped ++ [(f, m)])
              (pyProgress (idx0 + 1) n) _ h1,
            persistResults_updEvents,
            update_task_status_found _ now task_id _ _ _ _ t h,
            List.length_cons, range_map_shift]
          simp [applyUpdate_result_some, List.take_succ_cons,
            pOf_cons_err engine f m _ he, sOf_cons_err engine f m _ he,
            pOf_nil, sOf_nil, List.append_assoc,
            Nat.add_assoc, Nat.add_comm, Nat.add_left_comm]

/-- Claim C2, amended: the progress persisted after the k-th of N files is
the value of the source expression `int((k / N) * 100)` computed in IEEE-754
binary64 arithmetic (`pyProgress k N`).  This agrees with
`floor(100 * k / N)` for most k, N but not all: at N = 50, k = 29 the
double computation yields 57 while the floor is 58.  The persisted results
of a whole uninterrupted run are: the initial aggregate with progress 0,
one write per file with the running partition and `pyProgress (k+1) N`, and
the final COMPLETED write with progress 100. -/
theorem c2_amended_persisted_progress (engine : String → Except String String)
    (db : Store) (now : Int) (task_id : String) (files : List String)
    (t : Task) (h : storeGet db task_id = some t) :
    persistResults (process_batch_task engine (fun _ => none) db now task_id
        files).2
      = some (TaskResult.batch files.length [] [] 0)
        :: (((List.range files.length).map fun k =>
              some (TaskResult.batch files.length
                (pOf engine (files.take (k + 1)))
                (sOf engine (files.take (k + 1)))
                (pyProgress (k + 1) files.length)))
          ++ [some (TaskResult.batch files.length (pOf engine files)
              (sOf engine files) 100)]) := by
  simp only [process_batch_task, h]
  have h1 : storeGet (update_task_status db now task_id TaskStatus.processing
      (some (TaskResult.batch files.length [] [] 0)) none none).1 task_id
      = some (applyUpdate t now TaskStatus.processing
          (some (TaskResult.batch files.length [] [] 0)) none none) := by
    rw [update_task_status_found db now task_id _ _ _ _ t h]
    exact storeGet_storeSet_some db task_id t _ h
  rw [persistResults_append,
    batchLoop_persists engine now task_id files.length files _ 0 [] [] 0 _ h1,
    persistResults_updEvents,
    update_task_status_found _ now task_id _ _ _ _ t h]
  simp [applyUpdate_result_some]

/-- Witness for the amended C2 on Scenario C's three-file batch. -/
theorem c2_witness :
    persistResults (process_batch_task scenarioCEngine (fun _ => none)
        [("t", sampleTask)] 0 "t" ["a", "b", "c"]).2
      = some (TaskResult.batch (["a", "b", "c"] : List String).length [] [] 0)
        :: (((List.range (["a", "b", "c"] : List String).length).map fun k =>
              some (TaskResult.batch (["a", "b", "c"] : List String).length
                (pOf scenarioCEngine (["a", "b", "c"].take (k + 1)))
                (sOf scenarioCEngine (["a", "b", "c"].take (k + 1)))
                (pyProgress (k + 1) (["a", "b", "c"] : List String).length)))
          ++ [some (TaskResult.batch (["a", "b", "c"] : List String).length
              (pOf scenarioCEngine ["a", "b", "c"])
              (sOf scenarioCEngine ["a", "b", "c"]) 100)]) :=
  c2_amended_persisted_progress scenarioCEngine [("t", sampleTask)] 0 "t"
    ["a", "b", "c"] sampleTask (by decide)

/-! ### Claim C7 — orchestration-level interruption of the batch loop -/

/-- Invariant of the batch loop when an orchestration-level exception with
message `msg` fires at loop boundary `j` (and at no earlier boundary): the
task ends FAILED with that message and the aggregate accumulated from the
files attempted before the interruption. -/
theorem batchLoop_interrupted (engine : String → Except String String)
    (interrupt : Nat → Option String) (now : Int) (task_id : String)
    (n j : Nat) (msg : String) (hno : ∀ i, i < j → interrupt i = none)
    (hyes : interrupt j = some msg) :
    ∀ (rest : List String) (db : Store) (idx0 : Nat)
      (processed skipped : List (String × String)) (lp : Nat) (t : Task),
      storeGet db task_id = some t →
      idx0 ≤ j → j ≤ idx0 + rest.length →
      ∃ t', storeGet (batchLoop engine interrupt db now task_id n rest
          idx0 processed skipped lp).1 task_id = some t' ∧
        t'.status = TaskStatus.failed ∧ t'.error = some msg ∧
        t'.result = some (TaskResult.batch n
          (processed ++ pOf engine (rest.take (j - idx0)))
          (skipped ++ sOf engine (rest.take (j - idx0)))
          (if idx0 = j then lp else pyProgress j n)) := by
  intro rest
  induction rest with
  | nil =>
      intro db idx0 processed skipped lp t h hle hub
      have hj : idx0 = j := by simp at hub; omega
      subst hj
      simp only [batchLoop, hyes]
      refine ⟨applyUpdate t now TaskStatus.failed
        (some (TaskResult.batch n processed skipped lp)) (some msg) none,
        ?_, ?_, ?_, ?_⟩
      · rw [update_task_status_found _ now task_id _ _ _ _ t h]
        exact storeGet_storeSet_some _ task_id t _ h
      · exact applyUpdate_status t now TaskStatus.failed _ _ _
      · exact applyUpdate_error_some t now TaskStatus.failed _ msg _
      · rw [applyUpdate_result_some]
        simp [pOf_nil, sOf_nil]
  | cons f rest' ih =>
      intro db idx0 processed skipped lp t h hle hub
      by_cases hj : idx0 = j
      · subst hj
        simp only [batchLoop, hyes]
        refine ⟨applyUpdate t now TaskStatus.failed
          (some (TaskResult.batch n processed skipped lp)) (some msg) none,
          ?_, ?_, ?_, ?_⟩
        · rw [update_task_status_found _ now task_id _ _ _ _ t h]
          exact storeGet_storeSet_some _ task_id t _ h
        · exact applyUpdate_status t now TaskStatus.failed _ _ _
        · exact applyUpdate_error_some t now TaskStatus.failed _ msg _
        · rw [applyUpdate_result_some]
          simp [Nat.sub_self, pOf_nil, sOf_nil]
      · have hlt : idx0 < j := Nat.lt_of_le_of_ne hle hj
        cases he : engine f with
        | ok o =>
            simp only [batchLoop, he, hno idx0 hlt]
            have h1 : storeGet (update_task_status db now task_id
                TaskStatus.processing (some (TaskResult.batch n
                  (processed ++ [(f, o)]) skipped (pyProgress (idx0 + 1) n)))
                none none).1 task_id
                = some (applyUpdate t now TaskStatus.processing
                    (some (TaskResult.batch n (processed ++ [(f, o)]) skipped
                      (pyProgress (idx0 + 1) n))) none none) := by
              rw [update_task_status_found db now task_id _ _ _ _ t h]
              exact storeGet_storeSet_some db task_id t _ h
            obtain ⟨t', hget, hst, herr, hres⟩ := ih _ (idx0 + 1)
              (processed ++ [(f, o)]) skipped (pyProgress (idx0 + 1) n) _ h1
              (by omega) (by simp at hub ⊢; omega)
            refine ⟨t', hget, hst, herr, ?_⟩
            rw [hres]
            have hpr : (if idx0 + 1 = j then pyProgress (idx0 + 1) n
                else pyProgress j n) = pyProgress j n := by
              split_ifs with hh
              · rw [hh]
              · rfl
            rw [hpr, if_neg hj,
              show (f :: rest').take (j - idx0)
                  = f :: rest'.take (j - (idx0 + 1)) from by
                rw [show j - idx0 = (j - (idx0 + 1)) + 1 from by omega,
                  List.take_succ_cons],
              pOf_cons_ok engine f o _ he, sOf_cons_ok engine f o _ he]
            simp [List.append_assoc]
        | error m =>
            simp only [batchLoop, he, hno idx0 hlt]
            have h1 : storeGet (update_task_status db now task_id
                TaskStatus.processing (some (TaskResult.batch n processed
                  (skipped ++ [(f, m)]) (pyProgress (idx0 + 1) n)))
                none none).1 task_id
                = some (applyUpdate t now TaskStatus.processing
                    (some (TaskResult.batch n processed (skipped ++ [(f, m)])
                      (pyProgress (idx0 + 1) n))) none none) := by
              rw [update_task_status_found db now task_id _ _ _ _ t h]
              exact storeGet_storeSet_some db task_id t _ h
            obtain ⟨t', hget, hst, herr, hres⟩ := ih _ (idx0 + 1)
              processed (skipped ++ [(f, m)]) (pyProgress (idx0 + 1) n) _ h1
              (by omega) (by simp at hub ⊢; omega)
            refine ⟨t', hget, hst, herr, ?_⟩
            rw [hres]
            have hpr : (if idx0 + 1 = j then pyProgress (idx0 + 1) n
                else pyProgress j n) = pyProgress j n := by
              split_ifs with hh
              · rw [hh]
              · rfl
            rw [hpr, if_neg hj,
              show (f :: rest').take (j - idx0)
                  = f :: rest'.take (j - (idx0 + 1)) from by
                rw [show j - idx0 = (j - (idx0 + 1)) + 1 from by omega,
                  List.take_succ_cons],
              pOf_cons_err engine f m _ he, sOf_cons_err engine f m _ he]
            simp [List.append_assoc]

/-- Claim C7: a batch run interrupted by an orchestration-level exception
(raised by the driving loop after j files were fully attempted, not by a
per-file engine failure) ends FAILED with the exception's message in
`error`, and the result retains the `processed`, `skipped` and `progress`
values accumulated up to the interruption point (with progress 0 when the
loop had not completed any file yet, matching the `locals()` fallback in
the `except` branch). -/
theorem c7_interrupted_batch_preserves_partial
    (engine : String → Except String String) (db : Store) (now : Int)
    (task_id : String) (files : List String) (j : Nat) (msg : String)
    (t : Task) (h : storeGet db task_id = some t) (hj : j ≤ files.length) :
    ∃ t', storeGet (process_batch_task engine
        (fun i => if i = j then some msg else none) db now task_id
        files).1 task_id = some t' ∧
      t'.status = TaskStatus.failed ∧ t'.error = some msg ∧
      t'.result = some (TaskResult.batch files.length
        (pOf engine (files.take j)) (sOf engine (files.take j))
        (if j = 0 then 0 else pyProgress j files.length)) := by
  simp only [process_batch_task, h]
  have h1 : storeGet (update_task_status db now task_id TaskStatus.processing
      (some (TaskResult.batch files.length [] [] 0)) none none).1 task_id
      = some (applyUpdate t now TaskStatus.processing
          (some (TaskResult.batch files.length [] [] 0)) none none) := by
    rw [update_task_status_found db now task_id _ _ _ _ t h]
    exact storeGet_storeSet_some db task_id t _ h
  obtain ⟨t', hget, hst, herr, hres⟩ := batchLoop_interrupted engine
    (fun i => if i = j then some msg else none) now task_id files.length j
    msg (fun i hi => by simp [Nat.ne_of_lt hi]) (by simp) files _ 0 [] [] 0
    _ h1 (Nat.zero_le j) (by omega)
  refine ⟨t', hget, hst, herr, ?_⟩
  rw [hres]
  have hflip : (if 0 = j then 0 else pyProgress j files.length)
      = (if j = 0 then 0 else pyProgress j files.length) := by
    split_ifs with h1 h2 h3 <;> omega
  simp [hflip]

/-- Witness for C7: Scenario C's batch interrupted after the first file. -/
theorem c7_witness :
    ∃ t', storeGet (process_batch_task scenarioCEngine
        (fun i => if i = 1 then some "store down" else none)
        [("t", sampleTask)] 0 "t" ["a", "b", "c"]).1 "t" = some t' ∧
      t'.status = TaskStatus.failed ∧ t'.error = some "store down" ∧
      t'.result = some (TaskResult.batch (["a", "b", "c"] : List String).length
        (pOf scenarioCEngine (["a", "b", "c"].take 1))
        (sOf scenarioCEngine (["a", "b", "c"].take 1))
        (if 1 = 0 then 0
          else pyProgress 1 (["a", "b", "c"] : List String).length)) :=
  c7_interrupted_batch_preserves_partial scenarioCEngine [("t", sampleTask)]
    0 "t" ["a", "b", "c"] 1 "store down" sampleTask (by decide) (by decide)

/-! ### Trace projections of a single found update -/

theorem persistStatuses_upd_found (db : Store) (now : Int) (task_id : String)
    (st : TaskStatus) (r : Option TaskResult) (e : Option String)
    (rc : Option Nat) (t : Task) (h : storeGet db task_id = some t) :
    persistStatuses (updEvents (update_task_status db now task_id st r e rc))
      = [st] := by
  rw [persistStatuses_updEvents, update_task_status_found _ now task_id _ _ _
    _ t h]
  simp [applyUpdate_status]

theorem persistResults_upd_found (db : Store) (now : Int) (task_id : String)
    (st : TaskStatus) (v : TaskResult) (e : Option String) (rc : Option Nat)
    (t : Task) (h : storeGet db task_id = some t) :
    persistResults (updEvents (update_task_status db now task_id st (some v)
        e rc)) = [some v] := by
  rw [persistResults_updEvents, update_task_status_found _ now task_id _ _ _
    _ t h]
  simp [applyUpdate_result_some]

theorem hookNames_upd_found (db : Store) (now : Int) (task_id : String)
    (st : TaskStatus) (r : Option TaskResult) (e : Option String)
    (rc : Option Nat) (t : Task) (h : storeGet db task_id = some t) :
    hookNames (updEvents (update_task_status db now task_id st r e rc))
      = (hookEventsFor t.status st
          (applyUpdate t now st r e rc).to_dict).map Prod.fst := by
  rw [hookNames_updEvents, update_task_status_found _ now task_id _ _ _ _ t h]

/-! ### Claim C10 — empty batch -/

/-- Claim C10: a batch over an empty input list makes no engine call and
drives the task from PROCESSING straight to COMPLETED with the aggregate
total 0, empty partitions and progress 100; the two store writes carry
statuses PROCESSING then COMPLETED, and nothing raises (the progress
expression dividing by the list length is inside the per-file loop, which
never runs). -/
theorem c10_empty_batch (engine : String → Except String String) (db : Store)
    (now : Int) (task_id : String) (t : Task)
    (h : storeGet db task_id = some t) :
    (∃ t', storeGet (process_batch_task engine (fun _ => none) db now task_id
        []).1 task_id = some t' ∧
      t'.status = TaskStatus.completed ∧
      t'.result = some (TaskResult.batch 0 [] [] 100)) ∧
    engineCalls (process_batch_task engine (fun _ => none) db now task_id
        []).2 = [] ∧
    persistStatuses (process_batch_task engine (fun _ => none) db now task_id
        []).2 = [TaskStatus.processing, TaskStatus.completed] ∧
    persistResults (process_batch_task engine (fun _ => none) db now task_id
        []).2
      = [some (TaskResult.batch 0 [] [] 0),
        some (TaskResult.batch 0 [] [] 100)] := by
  have h1 : storeGet (update_task_status db now task_id TaskStatus.processing
      (some (TaskResult.batch 0 [] [] 0)) none none).1 task_id
      = some (applyUpdate t now TaskStatus.processing
          (some (TaskResult.batch 0 [] [] 0)) none none) := by
    rw [update_task_status_found db now task_id _ _ _ _ t h]
    exact storeGet_storeSet_some db task_id t _ h
  refine ⟨?_, ?_, ?_, ?_⟩
  · simp only [process_batch_task, h, List.length_nil]
    obtain ⟨t', hget, hst, hres⟩ := batchLoop_no_interrupt engine now task_id
      0 [] _ 0 [] [] 0 _ h1
    exact ⟨t', hget, hst, by simpa using hres⟩
  · simp only [process_batch_task, h, List.length_nil, batchLoop]
    rw [engineCalls_append, engineCalls_updEvents, engineCalls_updEvents]
    rfl
  · simp only [process_batch_task, h, List.length_nil, batchLoop]
    rw [persistStatuses_append,
      persistStatuses_upd_found _ now task_id _ _ _ _ t h,
      persistStatuses_upd_found _ now task_id _ _ _ _ _ h1]
    rfl
  · simp only [process_batch_task, h, List.length_nil, batchLoop]
    rw [persistResults_append,
      persistResults_upd_found _ now task_id _ _ _ _ t h,
      persistResults_upd_found _ now task_id _ _ _ _ _ h1]
    rfl

/-- Witness for C10: concrete empty batch. -/
theorem c10_witness :
    (∃ t', storeGet (process_batch_task (fun f => Except.ok f)
        (fun _ => none) [("t", sampleTask)] 0 "t" []).1 "t" = some t' ∧
      t'.status = TaskStatus.completed ∧
      t'.result = some (TaskResult.batch 0 [] [] 100)) ∧
    engineCalls (process_batch_task (fun f => Except.ok f) (fun _ => none)
        [("t", sampleTask)] 0 "t" []).2 = [] ∧
    persistStatuses (process_batch_task (fun f => Except.ok f) (fun _ => none)
        [("t", sampleTask)] 0 "t" []).2
      = [TaskStatus.processing, TaskStatus.completed] ∧
    persistResults (process_batch_task (fun f => Except.ok f) (fun _ => none)
        [("t", sampleTask)] 0 "t" []).2
      = [some (TaskResult.batch 0 [] [] 0),
        some (TaskResult.batch 0 [] [] 100)] :=
  c10_empty_batch (fun f => Except.ok f) [("t", sampleTask)] 0 "t" sampleTask
    (by decide)

/-! ### Claim C1 — hook invocations around retry -/

/-- Claim C1, amended: the start hook fires on every entry into PROCESSING
whose previous status differs from PROCESSING — not only the first.  For a
single-file task in PENDING whose first engine attempt fails and whose
driven retry succeeds, the hook sequence is start, start, complete: the
retry's re-entry into PROCESSING (from RETRYING) invokes start a second
time, while complete/error still fire on every COMPLETED/FAILED
transition. -/
theorem c1_amended_start_refires (m0 out : String) (db : Store) (now : Int)
    (task_id input : String) (t : Task) (fuel : Nat)
    (h : storeGet db task_id = some t) (hst : t.status = TaskStatus.pending)
    (hmr : 0 < t.max_retries) (hfuel : 0 < fuel) :
    hookNames (process_watermark_task
        (fun a => if a = 0 then Except.error m0 else Except.ok out) fuel db
        now task_id input 0).2
      = ["start", "start", "complete"] := by
  obtain ⟨f', rfl⟩ : ∃ f', fuel = f' + 1 := ⟨fuel - 1, by omega⟩
  have h1 : storeGet (update_task_status db now task_id TaskStatus.processing
      (some (TaskResult.progressOnly 0)) none none).1 task_id
      = some (applyUpdate t now TaskStatus.processing
          (some (TaskResult.progressOnly 0)) none none) := by
    rw [update_task_status_found db now task_id _ _ _ _ t h]
    exact storeGet_storeSet_some db task_id t _ h
  have h2 : storeGet (update_task_status (update_task_status db now task_id
      TaskStatus.processing (some (TaskResult.progressOnly 0)) none none).1
      now task_id TaskStatus.retrying (some (TaskResult.progressOnly 0))
      (some m0) (some 1)).1 task_id
      = some (applyUpdate (applyUpdate t now TaskStatus.processing
          (some (TaskResult.progressOnly 0)) none none) now
          TaskStatus.retrying (some (TaskResult.progressOnly 0)) (some m0)
          (some 1)) := by
    rw [update_task_status_found _ now task_id _ _ _ _ _ h1]
    exact storeGet_storeSet_some _ task_id _ _ h1
  have h3 : storeGet (update_task_status (update_task_status
      (update_task_status db now task_id TaskStatus.processing
        (some (TaskResult.progressOnly 0)) none none).1
      now task_id TaskStatus.retrying (some (TaskResult.progressOnly 0))
      (some m0) (some 1)).1 now task_id TaskStatus.processing
      (some (TaskResult.progressOnly 0)) none none).1 task_id
      = some (applyUpdate (applyUpdate (applyUpdate t now
          TaskStatus.processing (some (TaskResult.progressOnly 0)) none none)
          now TaskStatus.retrying (some (TaskResult.progressOnly 0))
          (some m0) (some 1)) now TaskStatus.processing
          (some (TaskResult.progressOnly 0)) none none) := by
    rw [update_task_status_found _ now task_id _ _ _ _ _ h2]
    exact storeGet_storeSet_some _ task_id _ _ h2
  rw [process_watermark_task.eq_def, h]
  simp only [show ((0 : Nat) = 0) = True from by simp, if_true, if_pos hmr,
    Nat.zero_add]
  rw [process_watermark_task.eq_def, h2]
  simp only [show ((1 : Nat) = 0) = False from by simp, if_false]
  simp only [hookNames_append]
  rw [hookNames_upd_found _ now task_id _ _ _ _ t h,
    hookNames_upd_found _ now task_id _ _ _ _ _ h1,
    hookNames_upd_found _ now task_id _ _ _ _ _ h2,
    hookNames_upd_found _ now task_id _ _ _ _ _ h3]
  simp only [hst, applyUpdate_status]
  rw [hookEventsFor_processing TaskStatus.pending _ (by decide),
    hookEventsFor_retrying, hookEventsFor_processing TaskStatus.retrying _
      (by decide), hookEventsFor_completed]
  simp [hookNames]

/-- Witness for the amended C1 at the default task. -/
theorem c1_amended_witness :
    hookNames (process_watermark_task
        (fun a => if a = 0 then Except.error "boom" else Except.ok "out.mp4")
        4 [("t", sampleTask)] 0 "t" "in.mp4" 0).2
      = ["start", "start", "complete"] :=
  c1_amended_start_refires "boom" "out.mp4" [("t", sampleTask)] 0 "t"
    "in.mp4" sampleTask 4 (by decide) (by decide) (by decide) (by decide)

end Watermarker
